import Mathlib

/-!
Verification development for the hdx-scraper-global-boundaries repository
(`src/boundaries.py`, `src/run.py`).  The Python code is shallowly embedded:
a tabular geometry layer (a GeoDataFrame) becomes a list of column names
together with rows, where each row is a total function from column names to
attribute values; geometries are abstracted as multisets of primitive part
identifiers, so that geometric union is modelled by list concatenation;
fallible steps return `Option`/`Except`.
-/

namespace GB

/-- An attribute value of a tabular geometry layer: a string, a number
(the float/int dtypes of pandas are modelled by rationals), a missing value
(NaN/None), or a geometry (abstracted to the list of ids of its primitive
parts, so a union is a concatenation). -/
inductive Val where
  | str (s : String)
  | num (q : ℚ)
  | null
  | geom (g : List Nat)
deriving DecidableEq, Repr

/-- Python `str.lower()` (ASCII-wise, per character). -/
def lowerStr (s : String) : String := ⟨s.data.map Char.toLower⟩

/-- Python `str.upper()` (ASCII-wise, per character). -/
def upperStr (s : String) : String := ⟨s.data.map Char.toUpper⟩

/-- Substring test on character lists. -/
def containsSubList (hay needle : List Char) : Bool :=
  hay.tails.any (fun t => needle.isPrefixOf t)

/-- Case-insensitive substring containment, modelling
`re.match(".*tok.*", name, re.IGNORECASE)` for a token with no regex
metacharacters (the configured tokens and "simplified" are plain words). -/
def containsCI (hay needle : String) : Bool :=
  containsSubList (lowerStr hay).data (lowerStr needle).data

/-- A tabular geometry layer: the declared column names, the rows (each a
total function from column names to values; names outside `cols` are not part
of the schema and are never observed), and the coordinate reference system,
stored as its display name (geopandas `crs.name`, e.g. "WGS 84"). -/
structure DF where
  cols : List String
  rows : List (String → Val)
  crs : Option String

def DF.nRows (df : DF) : Nat := df.rows.length

/-- The values of one column, top to bottom. -/
def DF.colVals (df : DF) (c : String) : List Val :=
  df.rows.map (fun r => r c)

/-- `df[c] = vs` for a per-row list of values: the column is appended to the
schema if new, and every row is updated at `c`. -/
def DF.setColVals (df : DF) (c : String) (vs : List Val) : DF :=
  { cols := if df.cols.contains c then df.cols else df.cols ++ [c],
    rows := (df.rows.zip vs).map (fun rv => fun d => if d = c then rv.2 else rv.1 d),
    crs := df.crs }

/-- `df[c] = v` for a scalar `v` (pandas broadcasts to every row). -/
def DF.setColConst (df : DF) (c : String) (v : Val) : DF :=
  df.setColVals c (List.replicate df.rows.length v)

/-- `drop_fields` from boundaries.py: drop every column that is not in
`keep_fields` and whose lowercased name is not "geometry". -/
def drop_fields (df : DF) (keep_fields : List String) : DF :=
  { df with cols := df.cols.filter (fun f => keep_fields.contains f || lowerStr f == "geometry") }

/-- The parts of a geometry value (non-geometries contribute nothing). -/
def geomParts : Val → List Nat
  | .geom g => g
  | _ => []

/-- The group key of a row: its values at the grouping columns. -/
def keyOf (keys : List String) (r : String → Val) : List Val := keys.map r

/-- geopandas `dissolve(by=keys, as_index=False)`: rows with a missing value
in a group key are dropped (pandas groupby dropna); the remaining rows are
grouped by their key values; each group's geometries are unioned (modelled by
concatenating part ids) and every other column is aggregated by its first
value.  `keys = []` models `dissolve()` with no `by`: all rows collapse into
one (none when the layer is empty).  The row order of the groups is not
observed by any property proved here, so it is left as produced by `dedup`;
the column order of the result is the grouping columns, then geometry, then
the remaining columns. -/
def dissolve (df : DF) (keys : List String) : DF :=
  let live := df.rows.filter (fun r => (keyOf keys r).all (fun v => v != Val.null))
  let ks := (live.map (keyOf keys)).dedup
  { cols := keys ++ "geometry" :: df.cols.filter (fun c => !keys.contains c && c != "geometry"),
    rows := ks.map (fun k =>
      let grp := live.filter (fun r => decide (keyOf keys r = k))
      fun c =>
        if c = "geometry" then .geom (grp.flatMap (fun r => geomParts (r "geometry")))
        else match grp.head? with
          | some r => r c
          | none => .null),
    crs := df.crs }

/-! ### Field Harmonizer: `Boundaries.calculate_fields` -/

/-- Python `pattern.replace("#", str(l))` on a configured naming pattern. -/
def replaceHash (pat : String) (l : Nat) : String :=
  ⟨pat.data.flatMap (fun c => if c = '#' then (toString l).data else [c])⟩

def admPcodeName (l : Nat) : String := "ADM" ++ (toString l ++ "_PCODE")

def admRefName (l : Nat) : String := "ADM" ++ (toString l ++ "_REF")

def admEnName (l : Nat) : String := "ADM" ++ (toString l ++ "_EN")

/-- Column resolution of calculate_fields (boundaries.py lines 140-150): the
exact canonical name wins if present among the snapshotted `fields`; otherwise
the first field whose uppercased name is one of the acceptable variants. -/
def findMappedField (fields : List String) (exact : String) (poss : List String) : Option String :=
  if fields.contains exact then some exact
  else fields.find? (fun f => poss.contains (upperStr f))

def Val.isNum : Val → Bool
  | .num _ => true
  | _ => false

def Val.isNull : Val → Bool
  | .null => true
  | _ => false

/-- `pandas.api.types.is_numeric_dtype` for a column as read back from a
shapefile: at least one numeric value, and nothing but numbers and missing
values.  (A column that is all missing values reads back with object dtype in
this model.) -/
def isNumericCol (vs : List Val) : Bool :=
  vs.any Val.isNum && vs.all (fun v => v.isNum || v.isNull)

/-- Truncation of a rational toward zero, as Python `int()` / numpy's cast in
`.astype(int)` truncate floats. -/
def ratTrunc (q : ℚ) : ℤ := q.num.tdiv q.den

/-- `.astype(int).astype(str)` on a single value of a numeric column; a
missing value cannot be cast to int (pandas raises), hence `none`. -/
def astypeIntStr : Val → Option Val
  | .num q => some (.str (toString (ratTrunc q)))
  | _ => none

/-- Lines 139, 144-145, 149-150, 152-157 of calculate_fields: resolve the
name column at depth `l` among the snapshotted `fields` and fill
`ADM{l}_REF` from it, or with the empty string when none is found. -/
def nameAssign (hn fields : List String) (l : Nat) (df : DF) : DF :=
  match findMappedField fields (admEnName l) (hn.map (fun f => replaceHash f l)) with
  | none => df.setColConst (admRefName l) (.str "")
  | some nf => df.setColVals (admRefName l) (df.colVals nf)

/-- Lines 138, 142-143, 146-148, 159-168 of calculate_fields: resolve the
pcode column at depth `l` and fill `ADM{l}_PCODE` - empty string when none is
found, stringified through `astype(int)` when the column is numeric (`none`
models the exception pandas raises on a missing value there), copied
unchanged otherwise. -/
def pcodeAssign (hp fields : List String) (l : Nat) (df1 : DF) : Option DF :=
  match findMappedField fields (admPcodeName l) (hp.map (fun f => replaceHash f l)) with
  | none => some (df1.setColConst (admPcodeName l) (.str ""))
  | some pf =>
    if isNumericCol (df1.colVals pf) then
      ((df1.colVals pf).mapM astypeIntStr).map (fun vs => df1.setColVals (admPcodeName l) vs)
    else
      some (df1.setColVals (admPcodeName l) (df1.colVals pf))

/-- One depth iteration of `Boundaries.calculate_fields` (lines 137-168): the
name assignment precedes the pcode assignment, which therefore reads the
layer after it, exactly as the source does. -/
def calcLevelStep (hp hn : List String) (fields : List String) (l : Nat) (df : DF) : Option DF :=
  pcodeAssign hp fields l (nameAssign hn fields l df)

/-- The depth loop `for l in range(1, int(level[-1]) + 1)` of calculate_fields. -/
def calcLevels (hp hn : List String) (fields : List String) : List Nat → DF → Option DF
  | [], df => some df
  | l :: ls, df => (calcLevelStep hp hn fields l df).bind (calcLevels hp hn fields ls)

/-- `Boundaries.calculate_fields`: set `alpha_3` and `ADM0_REF`, snapshot the
columns, run the per-depth harmonization for depths 1..n (n = `int(level[-1])`
of the level identifier), drop all non-canonical fields and dissolve on the
canonical ones.  `hp`/`hn` are the configured pcode/name patterns
(`shapefile_attribute_mappings`). -/
def calculate_fields (hp hn : List String) (boundary_lyr : DF) (iso country_name : String)
    (req_fields : List String) (n : Nat) : Option DF :=
  let df := (boundary_lyr.setColConst "alpha_3" (.str (upperStr iso))).setColConst
    "ADM0_REF" (.str country_name)
  let fields := df.cols
  (calcLevels hp hn fields (List.range' 1 n) df).map (fun df2 =>
    dissolve (drop_fields df2 req_fields) req_fields)

/-- The canonical field list built by `update_subnational_boundaries`
(boundaries.py lines 236-239). -/
def canonicalFields (n : Nat) : List String :=
  ["alpha_3", "ADM0_REF"] ++ (List.range' 1 n).flatMap (fun i => [admPcodeName i, admRefName i])

/-! ### Resource Resolver: `Boundaries.find_resource` -/

/-- A resource of an HDX dataset: its name, its declared file type (the value
of `get_file_type()`), and an opaque handle to its downloadable payload. -/
structure Resource where
  name : String
  file_type : String
  payload : String
deriving DecidableEq, Repr

structure HDataset where
  resources : List Resource
deriving DecidableEq, Repr

/-- The whitespace characters of Python's regex `\s` (ASCII). -/
def pyWs : List Char := [' ', '\t', '\n', '\r', '\x0b', '\x0c']

/-- Match of the regex fragment `(in)?(\s)?(0)?d` (with the `(\s)?` branch
only when `ws` is set) at the start of `cs`, where `cs` is what follows a
lowercased "adm".  Each optional group contributes both alternatives. -/
def admNumTail (ws : Bool) (d : Char) (cs : List Char) : Bool :=
  let b1 : List (List Char) :=
    match cs with
    | 'i' :: 'n' :: t => [t, cs]
    | _ => [cs]
  let b2 : List (List Char) := b1.flatMap (fun t =>
    match t with
    | c :: t' => if ws && pyWs.contains c then [t', t] else [t]
    | [] => [[]])
  let b3 : List (List Char) := b2.flatMap (fun t =>
    match t with
    | '0' :: t' => [t', t]
    | _ => [t])
  b3.any (fun t => t.head? == some d)

/-- `re.match(".*adm(in)?(\s)?(0)?<d>.*", name, re.IGNORECASE)` used by
find_resource to recognise the level numeral in a resource name. -/
def admLevelNameMatch (name : String) (d : Char) : Bool :=
  (lowerStr name).data.tails.any (fun cs =>
    match cs with
    | 'a' :: 'd' :: 'm' :: t => admNumTail true (Char.toLower d) t
    | _ => false)

/-- `level[-1]`: the last character of a level identifier such as "adm2". -/
def levelLast (level : String) : Char := level.data.getLastD ' '

/-- `int(level[-1])` for a level identifier ending in a digit. -/
def levelDigit (level : String) : Nat := (levelLast level).toNat - '0'.toNat

/-- `Boundaries.find_resource`: keep the resources whose file type is "shp"
and whose name contains the per-country override token (default "adm")
case-insensitively; only when more than one candidate remains, keep those
whose name references the level numeral. -/
def find_resource (resource_exceptions : List (String × String)) (iso : String)
    (dataset : HDataset) (level : String) : List Resource :=
  let resource_name := (resource_exceptions.lookup iso).getD "adm"
  let boundary_resource := dataset.resources.filter
    (fun r => r.file_type == "shp" && containsCI r.name resource_name)
  if boundary_resource.length > 1 then
    boundary_resource.filter (fun r => admLevelNameMatch r.name (levelLast level))
  else boundary_resource

/-! ### Shapefile Selector: the disambiguation of `Boundaries.find_shapefile` -/

/-- `re.match(".*admbnda.*adm(in)?(0)?<d>.*", b, re.IGNORECASE)`: the
boundary-naming convention test applied to shapefile paths (note: no `(\s)?`
in this pattern, unlike the resource-name one). -/
def shpNameMatch (path : String) (d : Char) : Bool :=
  (lowerStr path).data.tails.any (fun cs =>
    "admbnda".data.isPrefixOf cs &&
      (cs.drop 7).tails.any (fun cs2 =>
        match cs2 with
        | 'a' :: 'd' :: 'm' :: t => admNumTail false (Char.toLower d) t
        | _ => false))

/-- Lines 113-119 of find_shapefile: when more than one shapefile was found,
keep those matching the admin-depth naming convention - but only when at
least one does (otherwise the whole set is kept). -/
def shpStage1 (paths : List String) (level : String) : List String :=
  if paths.length > 1 then
    let name_match := paths.map (fun b => shpNameMatch b (levelLast level))
    if name_match.any id then paths.filter (fun b => shpNameMatch b (levelLast level))
    else paths
  else paths

/-- Lines 121-124 of find_shapefile: when more than one candidate remains,
drop those whose path contains "simplified" - the guard only skips the filter
when no candidate is simplified, in which case the filter would be the
identity anyway. -/
def shpStage2 (p1 : List String) : List String :=
  if p1.length > 1 then
    let simp_match := p1.map (fun b => containsCI b "simplified")
    if simp_match.any id then p1.filter (fun b => !containsCI b "simplified")
    else p1
  else p1

/-- The shapefile disambiguation of `Boundaries.find_shapefile` (lines
108-130), applied to the glob results: zero candidates fail immediately, the
two tie-break stages run in order, and anything other than exactly one
survivor is an ambiguity failure (`none`). -/
def selectShapefile (paths : List String) (level : String) : Option String :=
  if paths.length = 0 then none
  else
    let p2 := shpStage2 (shpStage1 paths level)
    if p2.length ≠ 1 then none else p2.head?

/-! ### Global Merger: `Boundaries.replace_country_boundaries` -/

/-- Code-point lexicographic comparison of character lists: Python's string
`<=`, which `sort_values` uses on an object (string) column. -/
def charsLe : List Char → List Char → Bool
  | [], _ => true
  | _ :: _, [] => false
  | a :: as, b :: bs => if a = b then charsLe as bs else decide (a < b)

def strLeB (a b : String) : Bool := charsLe a.data b.data

/-- A total order on attribute values used to model `sort_values`: missing
values first, then numbers by their numeric order, then strings by their
lexicographic order, then geometries (unordered among themselves).  Within the
pipeline the sort key column holds strings, so only the string case is ever
exercised; the other cases merely make the order total. -/
def valLe : Val → Val → Bool
  | .null, _ => true
  | _, .null => false
  | .num x, .num y => decide (x ≤ y)
  | .num _, _ => true
  | _, .num _ => false
  | .str x, .str y => strLeB x y
  | .str _, _ => true
  | _, .str _ => false
  | .geom _, .geom _ => true

/-- `f"ADM{level[-1]}_PCODE"`: the sort key column of a level's partition. -/
def pcodeColName (level : String) : String :=
  "ADM" ++ (String.mk [levelLast level] ++ "_PCODE")

/-- The `sort_values(by=[f"ADM{level[-1]}_PCODE"])` row order on a partition. -/
def rowLe (level : String) (r s : String → Val) : Prop :=
  valLe (r (pcodeColName level)) (s (pcodeColName level)) = true

instance rowLeDec (level : String) : DecidableRel (rowLe level) :=
  fun r s => instDecidableEqBool _ _

/-- `Boundaries.replace_country_boundaries` on one (level, geometry-kind)
partition of the Global Boundary Set: keep the rows whose `alpha_3` differs
from the country code, append the new layer's rows (pandas `append` also
unions the column lists), and sort the whole partition by the level's pcode
column.  pandas' sort algorithm is modelled by an insertion sort; no property
below depends on the order among rows with equal keys. -/
def replace_country_boundaries (global_bounds new : DF) (iso : String) (level : String) : DF :=
  let kept := global_bounds.rows.filter (fun r => r "alpha_3" != Val.str iso)
  { cols := global_bounds.cols ++ new.cols.filter (fun c => !global_bounds.cols.contains c),
    rows := List.insertionSort (rowLe level) (kept ++ new.rows),
    crs := global_bounds.crs }

/-- The partition is sorted ascending by the level's pcode column. -/
def sortedByPcode (df : DF) (level : String) : Prop :=
  df.rows.Pairwise (rowLe level)

/-- Collapse consecutive equal values (runs) of a list to one occurrence. -/
def collapseRuns : List Val → List Val
  | [] => []
  | a :: t =>
    match collapseRuns t with
    | [] => [a]
    | b :: t' => if a = b then b :: t' else a :: b :: t'

/-- "At most one contiguous block of records per country code": once the runs
of the country-code column are collapsed, no code appears twice. -/
def oneBlockPerCountry (df : DF) : Prop :=
  (collapseRuns (df.rows.map (fun r => r "alpha_3"))).Nodup

/-! ### Geometry Harmonizer tolerance and orchestration

External collaborators (the HDX catalog, downloads, unzipping, file reads,
reprojection and the geometric kernels: topology simplification, overlay
difference, validity repair, clipping, representative points) are supplied as
an environment of oracle functions; the control flow around them is the
code's own. -/

inductive PyErr where
  | keyError
  | valueError
deriving DecidableEq, Repr

structure CountryRec where
  iso3 : String
  cname : String

structure Env where
  readDataset : String → Option HDataset
  download : Resource → Option String
  unzip : String → Option (List String)
  readLayer : String → DF
  toWgs84 : DF → DF
  geoDiff : List Nat → List Nat → Option (List Nat)
  isValidG : List Nat → Bool
  makeValidG : List Nat → List Nat
  simplifyTopo : ℚ → DF → DF
  clipTo : DF → DF → DF
  reprPoint : List Nat → List Nat
  headersPcode : List String
  headersName : List String
  dataset_exceptions : List (String × String)
  resource_exceptions : List (String × String)

/-- The Global Boundary Set: layers keyed by "adm0_polygon", "water",
"{level}_{geom_type}", as held in `self.boundaries`. -/
def Store := List (String × DF)

def emptyDF : DF := ⟨[], [], none⟩

def storeGet (st : Store) (k : String) : DF := (List.lookup k st).getD emptyDF

def storePut (st : Store) (k : String) (df : DF) : Store := (k, df) :: st

/-- Replace a row's geometry value. -/
def setGeom (r : String → Val) (g : List Nat) : String → Val :=
  fun c => if c = "geometry" then .geom g else r c

/-- `Boundaries.create_national_boundary`: select the country's admin-0 rows,
subtract the water layer (overlay difference, modelled per row against the
union of the water geometries, dropping rows whose geometry vanishes),
dissolve to a single record, rebuild the `ISO_3` field, default the CRS, and
repair the first record's geometry if invalid.  When the country code matched
zero records, the selection is empty and the indexing
`country_adm0["geometry"][0]` raises - modelled as a `keyError`.  (A library
error raised earlier by overlay/dissolve on the empty frame would escape this
function just the same.) -/
def create_national_boundary (env : Env) (st : Store) (iso : String) : Except PyErr DF :=
  let adm0 := storeGet st "adm0_polygon"
  let sel := adm0.rows.filter (fun r => r "ISO_3" == Val.str iso)
  let water := storeGet st "water"
  let wg := water.rows.flatMap (fun r => geomParts (r "geometry"))
  let rows2 := sel.filterMap (fun r => (env.geoDiff (geomParts (r "geometry")) wg).map (setGeom r))
  let d := dissolve { adm0 with rows := rows2 } []
  let d2 := DF.setColConst (drop_fields d ["ISO_3"]) "ISO_3" (.str iso)
  let d3 := if d2.crs = none then { d2 with crs := some "WGS 84" } else d2
  match d3.rows.head? with
  | none => .error .keyError
  | some r0 =>
    let g := geomParts (r0 "geometry")
    if env.isValidG g then .ok d3
    else .ok { d3 with rows := setGeom r0 (env.makeValidG g) :: d3.rows.tail }

/-- `Boundaries.find_shapefile`: download the resource (a failed download is
caught and reported as `none`), unzip it (a bad archive likewise), glob the
shapefiles (the unzip oracle returns the glob results) and disambiguate. -/
def find_shapefile (env : Env) (resource : Resource) (level : String) : Option String :=
  match env.download resource with
  | none => none
  | some f =>
    match env.unzip f with
    | none => none
    | some paths => selectShapefile paths level

/-- The toposimplify tolerance of `Boundaries.update_geometry` (lines
177-179): `eps = 0.0075`, divided by `int(level[-1])` when that digit is
positive. -/
def simplifyEps (level : String) : ℚ :=
  let eps : ℚ := 0.0075
  if levelDigit level > 0 then eps / (levelDigit level : ℚ) else eps

/-- `Boundaries.update_geometry`: topology-preserving simplification at the
level's tolerance, re-attaching the national boundary's CRS, per-row validity
repair (the GeometryCollection cleanup of lines 191-202 acts within the
abstracted geometry values and is folded into the repair oracle), and the
final clip to the national boundary. -/
def update_geometry (env : Env) (boundary_lyr country_adm0 : DF) (level : String) : DF :=
  let l1 := env.simplifyTopo (simplifyEps level) boundary_lyr
  let l2 := { l1 with crs := country_adm0.crs }
  let l3 := { l2 with rows := l2.rows.map (fun r =>
      let g := geomParts (r "geometry")
      if env.isValidG g then r else setGeom r (env.makeValidG g)) }
  env.clipTo l3 country_adm0

/-- Lines 282-285: the representative-point companion layer, carrying the
canonical attributes. -/
def toPoints (env : Env) (lyr : DF) (req_fields : List String) : DF :=
  { cols := "geometry" :: req_fields,
    rows := lyr.rows.map (fun r => fun c =>
      if c = "geometry" then .geom (env.reprPoint (geomParts (r "geometry"))) else r c),
    crs := lyr.crs }

/-- Lines 208-214 applied to the store: replace the country's rows in the
`{level}_{geom_type}` partition. -/
def replace_country_store (st : Store) (boundaries : DF) (iso level geom_type : String) : Store :=
  let key := level ++ ("_" ++ geom_type)
  storePut st key (replace_country_boundaries (storeGet st key) boundaries iso level)

/-- The body of the per-level loop of `update_subnational_boundaries` (lines
235-291).  Every explicitly checked failure (`continue` in the source) yields
`.ok` with the store unchanged; the pandas exception inside
`calculate_fields` (astype on a missing value) is uncaught in the source and
becomes an `.error`. -/
def processLevel (env : Env) (ds : HDataset) (country_adm0 : DF) (iso country_name : String)
    (st : Store) (level : String) : Except PyErr Store :=
  let n := levelDigit level
  let req_fields := canonicalFields n
  let boundary_resource := find_resource env.resource_exceptions iso ds level
  if boundary_resource.length = 0 then .ok st
  else if boundary_resource.length ≠ 1 then .ok st
  else
    match boundary_resource.head? with
    | none => .ok st
    | some r0 =>
      match find_shapefile env r0 level with
      | none => .ok st
      | some shp =>
        let lyr := env.readLayer shp
        let lyr := if lyr.crs = none then { lyr with crs := some "WGS 84" } else lyr
        let lyr := if lyr.crs ≠ some "WGS 84" then env.toWgs84 lyr else lyr
        match calculate_fields env.headersPcode env.headersName lyr iso country_name
            req_fields n with
        | none => .error .valueError
        | some lyr2 =>
          let lyr3 := update_geometry env lyr2 country_adm0 level
          let points := toPoints env lyr3 req_fields
          let st1 := replace_country_store st lyr3 iso level "polygon"
          .ok (replace_country_store st1 points iso level "point")

/-- `Boundaries.update_subnational_boundaries`: skip do-not-process countries,
resolve the country's boundary dataset (the exception override or
`cod-em-<iso>`, falling back to `cod-ab-<iso>`; a missing dataset skips the
country), build the national boundary - whose failure is NOT caught - and run
the per-level loop. -/
def update_subnational_boundaries (env : Env) (st : Store) (country : CountryRec)
    (levels : List String) (do_not_process : List String) : Except PyErr Store :=
  let iso := country.iso3
  if do_not_process.contains iso then .ok st
  else
    let dataset_name := (env.dataset_exceptions.lookup iso).getD ("cod-em-" ++ lowerStr iso)
    let dsOpt :=
      match env.readDataset dataset_name with
      | some d => some d
      | none => env.readDataset ("cod-ab-" ++ lowerStr iso)
    match dsOpt with
    | none => .ok st
    | some ds => do
      let country_adm0 ← create_national_boundary env st iso
      levels.foldlM (fun s level => processLevel env ds country_adm0 iso country.cname s level) st

/-- The per-country loop of run.py `main()`: there is no exception handling
around `update_subnational_boundaries`, so a raised error aborts the
remaining countries. -/
def runAll (env : Env) (st : Store) (countries : List CountryRec)
    (levels : List String) (do_not_process : List String) : Except PyErr Store :=
  countries.foldlM (fun s c => update_subnational_boundaries env s c levels do_not_process) st

/-! ### Order lemmas for the merge sort key -/

theorem charsLe_trans : ∀ as bs cs : List Char,
    charsLe as bs = true → charsLe bs cs = true → charsLe as cs = true := by
  intro as
  induction as with
  | nil => intro bs cs _ _; rfl
  | cons a as ih =>
    intro bs cs h1 h2
    cases bs with
    | nil => simp [charsLe] at h1
    | cons b bs =>
      cases cs with
      | nil => simp [charsLe] at h2
      | cons c cs =>
        by_cases hab : a = b <;> by_cases hbc : b = c
        · subst hab; subst hbc
          simp only [charsLe, if_pos rfl] at h1 h2 ⊢
          exact ih _ _ h1 h2
        · subst hab
          simp only [charsLe, if_pos rfl, if_neg hbc, decide_eq_true_eq] at h2
          simp only [charsLe, if_neg (ne_of_lt h2), decide_eq_true_eq]
          exact h2
        · subst hbc
          simp only [charsLe, if_neg hab, decide_eq_true_eq] at h1
          simp only [charsLe, if_neg hab, decide_eq_true_eq]
          exact h1
        · simp only [charsLe, if_neg hab, decide_eq_true_eq] at h1
          simp only [charsLe, if_neg hbc, decide_eq_true_eq] at h2
          have hac := lt_trans h1 h2
          simp only [charsLe, if_neg (ne_of_lt hac), decide_eq_true_eq]
          exact hac

theorem charsLe_total : ∀ as bs : List Char, (charsLe as bs || charsLe bs as) = true := by
  intro as
  induction as with
  | nil => intro bs; simp [charsLe]
  | cons a as ih =>
    intro bs
    cases bs with
    | nil => simp [charsLe]
    | cons b bs =>
      by_cases hab : a = b
      · subst hab
        simp only [charsLe, if_pos rfl]
        exact ih bs
      · have hba : b ≠ a := fun h => hab h.symm
        simp only [charsLe, if_neg hab, if_neg hba, Bool.or_eq_true, decide_eq_true_eq]
        exact lt_or_gt_of_ne hab

theorem strLeB_trans (a b c : String) :
    strLeB a b = true → strLeB b c = true → strLeB a c = true :=
  charsLe_trans a.data b.data c.data

theorem strLeB_total (a b : String) : (strLeB a b || strLeB b a) = true :=
  charsLe_total a.data b.data

theorem valLe_trans : ∀ a b c : Val, valLe a b = true → valLe b c = true → valLe a c = true := by
  intro a b c hab hbc
  cases a <;> cases b <;> cases c <;>
    simp only [valLe, decide_eq_true_eq] at hab hbc ⊢ <;>
    first
      | rfl
      | exact le_trans hab hbc
      | exact strLeB_trans _ _ _ hab hbc
      | exact Bool.noConfusion hab
      | exact Bool.noConfusion hbc

theorem valLe_total : ∀ a b : Val, (valLe a b || valLe b a) = true := by
  intro a b
  cases a <;> cases b <;>
    simp only [valLe, Bool.or_self, Bool.or_true, Bool.true_or, Bool.or_eq_true,
      decide_eq_true_eq] <;>
    first
      | rfl
      | exact le_total _ _
      | exact (Bool.or_eq_true _ _).mp (strLeB_total _ _)

instance rowLeTotal (level : String) : IsTotal (String → Val) (rowLe level) :=
  ⟨fun r s => Bool.or_eq_true .. |>.mp (valLe_total _ _)⟩

instance rowLeTrans (level : String) : IsTrans (String → Val) (rowLe level) :=
  ⟨fun _ _ _ hab hbc => valLe_trans _ _ _ hab hbc⟩

/-- The merged partition is always sorted by the level's pcode column
(shared by the merger properties below). -/
theorem sorted_replace (g new : DF) (iso level : String) :
    sortedByPcode (replace_country_boundaries g new iso level) level :=
  List.sorted_insertionSort (rowLe level) _

/-- After a merge, the rows carrying the merged country's code are, as a
multiset, exactly those of the merged layer. -/
theorem filter_iso_replace (g new : DF) (iso level : String) :
    ((replace_country_boundaries g new iso level).rows.filter
        (fun r => r "alpha_3" == Val.str iso)).Perm
      (new.rows.filter (fun r => r "alpha_3" == Val.str iso)) := by
  unfold replace_country_boundaries
  refine ((List.perm_insertionSort _ _).filter _).trans ?_
  rw [List.filter_append, List.filter_filter]
  have h1 : (g.rows.filter
      (fun r => (r "alpha_3" == Val.str iso) && (r "alpha_3" != Val.str iso))) = [] := by
    apply List.filter_eq_nil_iff.mpr
    intro r _
    cases h : r "alpha_3" == Val.str iso <;> simp [bne, h]
  rw [h1, List.nil_append]

/-- C5: Merge idempotence on ordering — for every partition of the Global
Boundary Set, country code, level and country layer, performing
`replace_country_boundaries` twice in a row with the same input yields a
partition that contains the country's records exactly once (as a multiset,
exactly the records of the merged layer, both after the first and after the
second merge, so the first merge leaves no duplicates) and that is sorted
ascending by the level's `ADM{n}_PCODE` attribute after each of the two
merges. -/
theorem c5_merge_idempotence (g new : DF) (iso level : String) :
    ((replace_country_boundaries g new iso level).rows.filter
        (fun r => r "alpha_3" == Val.str iso)).Perm
      (new.rows.filter (fun r => r "alpha_3" == Val.str iso)) ∧
    ((replace_country_boundaries (replace_country_boundaries g new iso level) new iso
        level).rows.filter (fun r => r "alpha_3" == Val.str iso)).Perm
      (new.rows.filter (fun r => r "alpha_3" == Val.str iso)) ∧
    sortedByPcode (replace_country_boundaries g new iso level) level ∧
    sortedByPcode (replace_country_boundaries (replace_country_boundaries g new iso level)
      new iso level) level :=
  ⟨filter_iso_replace g new iso level,
   filter_iso_replace (replace_country_boundaries g new iso level) new iso level,
   sorted_replace g new iso level,
   sorted_replace (replace_country_boundaries g new iso level) new iso level⟩

/-- C6: Global Merger frame property — merging a country's layer (all of
whose records carry that country's code) into a partition leaves the multiset
of records of every other country exactly as it was. -/
theorem c6_merge_frame (g new : DF) (iso level : String)
    (h : ∀ r ∈ new.rows, r "alpha_3" = Val.str iso) :
    ((replace_country_boundaries g new iso level).rows.filter
        (fun r => r "alpha_3" != Val.str iso)).Perm
      (g.rows.filter (fun r => r "alpha_3" != Val.str iso)) := by
  unfold replace_country_boundaries
  refine ((List.perm_insertionSort _ _).filter _).trans ?_
  rw [List.filter_append, List.filter_filter]
  have h1 : (g.rows.filter
      (fun r => (r "alpha_3" != Val.str iso) && (r "alpha_3" != Val.str iso)))
      = g.rows.filter (fun r => r "alpha_3" != Val.str iso) := by
    apply List.filter_congr
    intro r _
    exact Bool.and_self _
  have h2 : (new.rows.filter (fun r => r "alpha_3" != Val.str iso)) = [] := by
    apply List.filter_eq_nil_iff.mpr
    intro r hr
    rw [h r hr]
    simp [bne]
  rw [h1, h2, List.append_nil]

/-- Concrete rows used for the merger instances below: country "AAA" with
pcodes "AF01" and "ZZ99", country "BBB" with pcode "BM02". -/
def rowA1 : String → Val := fun c =>
  if c = "alpha_3" then .str "AAA" else if c = "ADM1_PCODE" then .str "AF01" else .geom [1]

def rowA2 : String → Val := fun c =>
  if c = "alpha_3" then .str "AAA" else if c = "ADM1_PCODE" then .str "ZZ99" else .geom [2]

def rowB : String → Val := fun c =>
  if c = "alpha_3" then .str "BBB" else if c = "ADM1_PCODE" then .str "BM02" else .geom [3]

def gdfM : DF := ⟨["alpha_3", "ADM1_PCODE", "geometry"], [rowA1, rowA2], some "WGS 84"⟩

def ndfM : DF := ⟨["alpha_3", "ADM1_PCODE", "geometry"], [rowB], some "WGS 84"⟩

theorem c6_merge_frame_witness :
    (∀ r ∈ ndfM.rows, r "alpha_3" = Val.str "BBB") ∧
    ((replace_country_boundaries gdfM ndfM "BBB" "adm1").rows.filter
        (fun r => r "alpha_3" != Val.str "BBB")).Perm
      (gdfM.rows.filter (fun r => r "alpha_3" != Val.str "BBB")) := by
  have h : ∀ r ∈ ndfM.rows, r "alpha_3" = Val.str "BBB" := by
    intro r hr
    rw [List.mem_singleton.mp hr]
    rfl
  exact ⟨h, c6_merge_frame gdfM ndfM "BBB" "adm1" h⟩

/-- C7 fails as stated: sorting the partition by pcode alone does not keep a
country's records adjacent once another country's pcode falls between them.
Country "AAA" holds pcodes "AF01" and "ZZ99"; merging "BBB" with pcode "BM02"
produces the row order AAA, BBB, AAA — two separate blocks for "AAA". -/
theorem c7_counterexample :
    ((replace_country_boundaries gdfM ndfM "BBB" "adm1").rows.map (fun r => r "alpha_3")
        = [.str "AAA", .str "BBB", .str "AAA"]) ∧
    ¬ oneBlockPerCountry (replace_country_boundaries gdfM ndfM "BBB" "adm1") := by
  constructor
  · decide
  · intro hblk
    have : ¬ (collapseRuns ((replace_country_boundaries gdfM ndfM "BBB" "adm1").rows.map
        (fun r => r "alpha_3"))).Nodup := by decide
    exact this hblk

/-- C7 amended: after every update by the Global Merger the partition is
sorted by the level's pcode field; the contiguous-block half of the claim is
false (see the counterexample), since a sort by pcode alone can interleave
countries whose pcodes overlap. -/
theorem c7_sorted_amended (g new : DF) (iso level : String) :
    sortedByPcode (replace_country_boundaries g new iso level) level :=
  sorted_replace g new iso level

/-- C3: Resource Resolver selection — `find_resource` keeps exactly the
resources whose declared file type is the shapefile-archive type ("shp") and
whose name contains the per-country override token (default "adm")
case-insensitively; only when more than one candidate remains does it further
keep those whose name references the level's numeral (tolerating
"adm"/"admin", optional whitespace and optional zero-padding).  In
particular, with candidates "abc_adm2_shp" and "abc_adm1_shp" at level
"adm2" it returns exactly the first. -/
theorem c3_resource_resolver :
    (∀ (exc : List (String × String)) (iso : String) (ds : HDataset) (level : String),
      find_resource exc iso ds level =
        (let stage1 := ds.resources.filter
          (fun r => r.file_type == "shp" && containsCI r.name ((exc.lookup iso).getD "adm"))
         if stage1.length ≤ 1 then stage1
         else stage1.filter (fun r => admLevelNameMatch r.name (levelLast level)))) ∧
    find_resource [] "xyz"
        ⟨[⟨"abc_adm2_shp", "shp", "p2"⟩, ⟨"abc_adm1_shp", "shp", "p1"⟩]⟩ "adm2"
      = [⟨"abc_adm2_shp", "shp", "p2"⟩] := by
  constructor
  · intro exc iso ds level
    unfold find_resource
    dsimp only
    split
    · rw [if_neg (by omega)]
    · rw [if_pos (by omega)]
  · decide

/-- The Shapefile Selector pipeline exactly as claim C4 words it: among
multiple candidates keep those matching the admin-depth convention, falling
back to the whole pre-filter set when none matches; only when more than one
still remains, exclude the candidates whose path contains "simplified"; and
return a file only when exactly one candidate is left. -/
def selectShapefileClaim (paths : List String) (level : String) : Option String :=
  let convMatch := paths.filter (fun b => shpNameMatch b (levelLast level))
  let q1 := if paths.length ≤ 1 then paths
    else if convMatch = [] then paths else convMatch
  let q2 := if q1.length ≤ 1 then q1
    else q1.filter (fun b => !containsCI b "simplified")
  if q2.length = 1 then q2.head? else none

/-- `any(xs)` on a mapped Bool list, as the source's `if any(name_match):`
computes it. -/
theorem any_map_id {α : Type} (f : α → Bool) (l : List α) : (l.map f).any id = l.any f := by
  induction l with
  | nil => rfl
  | cons a t ih => simp only [List.map_cons, List.any_cons, ih, id_eq]

/-- The depth-convention stage equals its claim-side description: keep the
convention matches, falling back to the whole set when there are none. -/
theorem shpStage1_eq (paths : List String) (level : String) :
    shpStage1 paths level =
      (if paths.length ≤ 1 then paths
       else if paths.filter (fun b => shpNameMatch b (levelLast level)) = [] then paths
       else paths.filter (fun b => shpNameMatch b (levelLast level))) := by
  unfold shpStage1
  by_cases hl : paths.length > 1
  · have hl2 : ¬ paths.length ≤ 1 := by omega
    by_cases hc : paths.filter (fun b => shpNameMatch b (levelLast level)) = []
    · have hany : (paths.map (fun b => shpNameMatch b (levelLast level))).any id = false := by
        rw [any_map_id]
        apply List.any_eq_false.mpr
        intro b hb
        exact List.filter_eq_nil_iff.mp hc b hb
      simp [hl, hl2, hc, hany]
    · have hany : (paths.map (fun b => shpNameMatch b (levelLast level))).any id = true := by
        rw [any_map_id]
        apply List.any_eq_true.mpr
        rcases List.exists_mem_of_ne_nil _ hc with ⟨b, hb⟩
        rcases List.mem_filter.mp hb with ⟨hb1, hb2⟩
        exact ⟨b, hb1, hb2⟩
      simp [hl, hl2, hc, hany]
  · have hl2 : paths.length ≤ 1 := by omega
    simp [hl, hl2]

/-- The simplified-exclusion stage equals its claim-side description: with
more than one candidate it always keeps the non-simplified ones (when none is
simplified the source skips a filter that would not change anything). -/
theorem shpStage2_eq (p1 : List String) :
    shpStage2 p1 =
      (if p1.length ≤ 1 then p1 else p1.filter (fun b => !containsCI b "simplified")) := by
  unfold shpStage2
  by_cases hl : p1.length > 1
  · have hl2 : ¬ p1.length ≤ 1 := by omega
    by_cases ha : (p1.map (fun b => containsCI b "simplified")).any id = true
    · simp [hl, hl2, ha]
    · have ha2 := ha
      rw [any_map_id] at ha2
      have hall : ∀ b ∈ p1, containsCI b "simplified" = false := by
        intro b hb
        rcases hx : containsCI b "simplified"
        · rfl
        · exact absurd (List.any_eq_true.mpr ⟨b, hb, hx⟩) ha2
      have hfix : p1.filter (fun b => !containsCI b "simplified") = p1 := by
        apply List.filter_eq_self.mpr
        intro b hb
        simp [hall b hb]
      simp [hl, hl2, ha, hfix]
  · have hl2 : p1.length ≤ 1 := by omega
    simp [hl, hl2]

/-- C4: Shapefile Selector tie-break order and fallback - the selector agrees
with the claim's description on every input (in particular the
depth-convention filter falls back to the whole set when it matches nothing,
and the "simplified" exclusion only runs while more than one candidate
remains), and on the three-file scenario it returns exactly the
non-simplified admbnda adm2 file. -/
theorem c4_shapefile_selector :
    (∀ (paths : List String) (level : String),
      selectShapefile paths level = selectShapefileClaim paths level) ∧
    selectShapefile ["a/xyz_admbnda_adm2.shp", "a/simplified/xyz_admbnda_adm2.shp",
        "a/other.shp"] "adm2" = some "a/xyz_admbnda_adm2.shp" := by
  constructor
  · intro paths level
    rcases hpe : paths with _ | ⟨p, ps⟩
    · rfl
    rw [← hpe]
    have hne : paths.length ≠ 0 := by rw [hpe]; simp
    unfold selectShapefile selectShapefileClaim
    rw [if_neg hne, shpStage1_eq, shpStage2_eq]
    by_cases h1 : ((if (if paths.length ≤ 1 then paths
        else if paths.filter (fun b => shpNameMatch b (levelLast level)) = [] then paths
        else paths.filter (fun b => shpNameMatch b (levelLast level))).length ≤ 1 then
          (if paths.length ≤ 1 then paths
           else if paths.filter (fun b => shpNameMatch b (levelLast level)) = [] then paths
           else paths.filter (fun b => shpNameMatch b (levelLast level)))
        else (if paths.length ≤ 1 then paths
           else if paths.filter (fun b => shpNameMatch b (levelLast level)) = [] then paths
           else paths.filter (fun b => shpNameMatch b (levelLast level))).filter
          (fun b => !containsCI b "simplified")).length = 1)
    · rw [if_neg (by omega), if_pos h1]
    · rw [if_pos (by omega), if_neg h1]
  · decide

/-- C10 (implicit): all-simplified exhaustion — when more than one candidate
survives the admin-depth stage and every survivor's path contains
"simplified", the exclusion removes them all, zero candidates remain, and the
selector returns no file; it never falls back to a simplified file. -/
theorem c10_all_simplified (paths : List String) (level : String)
    (h1 : (shpStage1 paths level).length > 1)
    (h2 : ∀ p ∈ shpStage1 paths level, containsCI p "simplified" = true) :
    selectShapefile paths level = none := by
  have hpne : paths.length ≠ 0 := by
    intro h0
    rcases List.length_eq_zero.mp h0 with rfl
    rw [show shpStage1 [] level = [] from rfl] at h1
    simp at h1
  have hs1ne : shpStage1 paths level ≠ [] := by
    intro hnil
    rw [hnil] at h1
    simp at h1
  have hany : ((shpStage1 paths level).map (fun b => containsCI b "simplified")).any id
      = true := by
    rw [any_map_id]
    apply List.any_eq_true.mpr
    rcases List.exists_mem_of_ne_nil _ hs1ne with ⟨b, hb⟩
    exact ⟨b, hb, h2 b hb⟩
  have hflt : (shpStage1 paths level).filter (fun b => !containsCI b "simplified") = [] := by
    apply List.filter_eq_nil_iff.mpr
    intro b hb
    simp [h2 b hb]
  have hs2 : shpStage2 (shpStage1 paths level) = [] := by
    unfold shpStage2
    rw [if_pos h1, if_pos hany, hflt]
  unfold selectShapefile
  rw [if_neg hpne, hs2]
  rfl

theorem c10_all_simplified_witness :
    ((shpStage1 ["a/simplified/x_admbnda_adm2.shp", "b/simplified/y_admbnda_adm2.shp",
        "c/other.txt.shp"] "adm2").length > 1) ∧
    (∀ p ∈ shpStage1 ["a/simplified/x_admbnda_adm2.shp", "b/simplified/y_admbnda_adm2.shp",
        "c/other.txt.shp"] "adm2", containsCI p "simplified" = true) ∧
    selectShapefile ["a/simplified/x_admbnda_adm2.shp", "b/simplified/y_admbnda_adm2.shp",
        "c/other.txt.shp"] "adm2" = none :=
  ⟨by decide, by decide,
   c10_all_simplified _ "adm2" (by decide) (by decide)⟩

/-- C9: Simplification tolerance formula — for every level, the
line-simplification tolerance used by `update_geometry` equals 0.0075 divided
by the level's depth when that depth is at least 1, and exactly 0.0075 when
the depth is 0. -/
theorem c9_simplify_tolerance (level : String) :
    (1 ≤ levelDigit level → simplifyEps level = 0.0075 / (levelDigit level : ℚ)) ∧
    (levelDigit level = 0 → simplifyEps level = 0.0075) := by
  constructor
  · intro h
    unfold simplifyEps
    rw [if_pos (by omega)]
  · intro h
    unfold simplifyEps
    rw [if_neg (by omega)]

theorem c9_simplify_tolerance_witness :
    (1 ≤ levelDigit "adm2" ∧ simplifyEps "adm2" = 0.0075 / (2 : ℚ)) ∧
    (levelDigit "adm0" = 0 ∧ simplifyEps "adm0" = 0.0075) := by
  refine ⟨⟨by decide, ?_⟩, ⟨by decide, (c9_simplify_tolerance "adm0").2 (by decide)⟩⟩
  have h := (c9_simplify_tolerance "adm2").1 (by decide)
  have h2 : levelDigit "adm2" = 2 := by decide
  rw [h, h2]
  norm_num

/-! ### Field Harmonizer value lemmas (claim C2) -/

theorem length_colVals (df : DF) (c : String) : (df.colVals c).length = df.rows.length := by
  simp [DF.colVals]

theorem rows_length_setColVals (df : DF) (c : String) (vs : List Val)
    (h : vs.length = df.rows.length) : (df.setColVals c vs).rows.length = df.rows.length := by
  simp [DF.setColVals, h]

theorem colVals_setColVals_self (df : DF) (c : String) (vs : List Val)
    (h : vs.length = df.rows.length) : (df.setColVals c vs).colVals c = vs := by
  unfold DF.setColVals DF.colVals
  dsimp only
  rw [List.map_map]
  have : ((fun r => r c) ∘ fun rv => fun d => if d = c then rv.2 else rv.1 d)
      = fun rv : (String → Val) × Val => rv.2 := by
    funext rv
    simp
  rw [this]
  exact List.map_snd_zip _ _ (le_of_eq h)

theorem colVals_setColVals_ne (df : DF) (c c2 : String) (vs : List Val)
    (h : vs.length = df.rows.length) (hne : c2 ≠ c) :
    (df.setColVals c vs).colVals c2 = df.colVals c2 := by
  unfold DF.setColVals DF.colVals
  dsimp only
  rw [List.map_map]
  have : ((fun r => r c2) ∘ fun rv => fun d => if d = c then rv.2 else rv.1 d)
      = (fun r => r c2) ∘ (fun rv : (String → Val) × Val => rv.1) := by
    funext rv
    simp [hne]
  rw [this, ← List.map_map, List.map_fst_zip _ _ (ge_of_eq h)]

theorem rows_length_setColConst (df : DF) (c : String) (v : Val) :
    (df.setColConst c v).rows.length = df.rows.length :=
  rows_length_setColVals df c _ (List.length_replicate _ _)

theorem colVals_setColConst_self (df : DF) (c : String) (v : Val) :
    (df.setColConst c v).colVals c = List.replicate df.rows.length v :=
  colVals_setColVals_self df c _ (List.length_replicate _ _)

theorem colVals_setColConst_ne (df : DF) (c c2 : String) (v : Val) (hne : c2 ≠ c) :
    (df.setColConst c v).colVals c2 = df.colVals c2 :=
  colVals_setColVals_ne df c c2 _ (List.length_replicate _ _) hne

/-- The name assignment touches only the `ADM{l}_REF` column. -/
theorem colVals_nameAssign_ne (hn fields : List String) (l : Nat) (df : DF) (c : String)
    (hne : c ≠ admRefName l) :
    (nameAssign hn fields l df).colVals c = df.colVals c := by
  unfold nameAssign
  rcases findMappedField fields (admEnName l) (hn.map (fun f => replaceHash f l)) with _ | nf
  · exact colVals_setColConst_ne df _ c _ hne
  · exact colVals_setColVals_ne df _ c _ (length_colVals df nf) hne

theorem rows_length_nameAssign (hn fields : List String) (l : Nat) (df : DF) :
    (nameAssign hn fields l df).rows.length = df.rows.length := by
  unfold nameAssign
  rcases findMappedField fields (admEnName l) (hn.map (fun f => replaceHash f l)) with _ | nf
  · exact rows_length_setColConst df _ _
  · exact rows_length_setColVals df _ _ (length_colVals df nf)

/-- A successful `mapM` is the pointwise map. -/
theorem mapM_some_eq_map (f : Val → Option Val) :
    ∀ (l l2 : List Val), l.mapM f = some l2 → l2 = l.map (fun v => (f v).getD v) := by
  intro l
  induction l with
  | nil =>
    intro l2 h
    simp only [List.mapM_nil, Option.pure_def, Option.some.injEq] at h
    rw [← h]
    rfl
  | cons a t ih =>
    intro l2 h
    simp only [List.mapM_cons, Option.pure_def, Option.bind_eq_bind, Option.bind_eq_some,
      Option.some.injEq] at h
    rcases h with ⟨b, hb, t2, ht2, rfl⟩
    rw [List.map_cons, hb, ← ih t2 ht2]
    rfl

/-- C2: Pcode stringification — in a depth iteration of calculate_fields, if
a pcode source column is found and is numeric-typed, the harmonized
`ADM{l}_PCODE` value of every record is the integer-truncated decimal string
of the source value (`12034.0` becomes "12034", never "12034.0"); if the
column is non-numeric it is carried over unchanged; if no pcode column is
found the field is the empty string.  (The hypothesis `pf ≠ ADM{l}_REF`
excludes the degenerate configuration in which the pcode column is the very
name column the same iteration just overwrote.) -/
theorem c2_pcode_stringification (hp hn fields : List String) (l : Nat) (df out : DF)
    (hstep : calcLevelStep hp hn fields l df = some out) :
    (findMappedField fields (admPcodeName l) (hp.map (fun f => replaceHash f l)) = none →
      out.colVals (admPcodeName l) = List.replicate df.rows.length (Val.str "")) ∧
    (∀ pf,
      findMappedField fields (admPcodeName l) (hp.map (fun f => replaceHash f l)) = some pf →
      pf ≠ admRefName l →
      (isNumericCol (df.colVals pf) = true →
        out.colVals (admPcodeName l) = (df.colVals pf).map (fun v =>
          match v with
          | Val.num q => Val.str (toString (ratTrunc q))
          | w => w)) ∧
      (isNumericCol (df.colVals pf) = false →
        out.colVals (admPcodeName l) = df.colVals pf)) := by
  unfold calcLevelStep pcodeAssign at hstep
  constructor
  · intro hnone
    rw [hnone] at hstep
    have hout := Option.some.inj hstep
    rw [← hout, colVals_setColConst_self, rows_length_nameAssign]
  · intro pf hpf href
    rw [hpf] at hstep
    dsimp only at hstep
    have hcv : (nameAssign hn fields l df).colVals pf = df.colVals pf :=
      colVals_nameAssign_ne hn fields l df pf href
    rw [hcv] at hstep
    constructor
    · intro hnum
      rw [hnum, if_pos rfl] at hstep
      rcases Option.map_eq_some'.mp hstep with ⟨vs, hvs, hout⟩
      have hvs2 := mapM_some_eq_map astypeIntStr _ _ hvs
      have hlen : vs.length = (nameAssign hn fields l df).rows.length := by
        rw [hvs2, List.length_map, length_colVals, rows_length_nameAssign]
      rw [← hout, colVals_setColVals_self _ _ _ hlen, hvs2]
      apply List.map_congr_left
      intro v _
      cases v <;> rfl
    · intro hnum
      rw [hnum] at hstep
      rw [if_neg (by simp)] at hstep
      have hout := Option.some.inj hstep
      rw [← hout, colVals_setColVals_self _ _ _ ?hl]
      case hl => rw [length_colVals, rows_length_nameAssign]

/-! ### Schema lemmas (claim C1) -/

theorem cols_filter_setColVals (df : DF) (c : String) (vs : List Val) (p : String → Bool)
    (hc : p c = false) : (df.setColVals c vs).cols.filter p = df.cols.filter p := by
  unfold DF.setColVals
  dsimp only
  by_cases h : df.cols.contains c
  · rw [if_pos h]
  · rw [if_neg h, List.filter_append]
    simp [hc]

theorem cols_filter_setColConst (df : DF) (c : String) (v : Val) (p : String → Bool)
    (hc : p c = false) : (df.setColConst c v).cols.filter p = df.cols.filter p :=
  cols_filter_setColVals df c _ p hc

theorem cols_filter_nameAssign (hn fields : List String) (l : Nat) (df : DF)
    (p : String → Bool) (h : p (admRefName l) = false) :
    (nameAssign hn fields l df).cols.filter p = df.cols.filter p := by
  unfold nameAssign
  rcases findMappedField fields (admEnName l) (hn.map (fun f => replaceHash f l)) with _ | nf
  · exact cols_filter_setColConst df _ _ p h
  · exact cols_filter_setColVals df _ _ p h

theorem cols_filter_pcodeAssign (hp fields : List String) (l : Nat) (df1 out : DF)
    (p : String → Bool) (h : p (admPcodeName l) = false)
    (hstep : pcodeAssign hp fields l df1 = some out) :
    out.cols.filter p = df1.cols.filter p := by
  unfold pcodeAssign at hstep
  split at hstep
  · rw [← Option.some.inj hstep]
    exact cols_filter_setColConst df1 _ _ p h
  · split at hstep
    · rcases Option.map_eq_some'.mp hstep with ⟨vs, _, hout⟩
      rw [← hout]
      exact cols_filter_setColVals df1 _ _ p h
    · rw [← Option.some.inj hstep]
      exact cols_filter_setColVals df1 _ _ p h

theorem cols_filter_calcLevelStep (hp hn fields : List String) (l : Nat) (df out : DF)
    (p : String → Bool) (h1 : p (admRefName l) = false) (h2 : p (admPcodeName l) = false)
    (hstep : calcLevelStep hp hn fields l df = some out) :
    out.cols.filter p = df.cols.filter p := by
  unfold calcLevelStep at hstep
  rw [cols_filter_pcodeAssign hp fields l _ out p h2 hstep]
  exact cols_filter_nameAssign hn fields l df p h1

theorem cols_filter_calcLevels (hp hn fields : List String) (p : String → Bool) :
    ∀ (ls : List Nat) (df out : DF),
      (∀ l ∈ ls, p (admRefName l) = false ∧ p (admPcodeName l) = false) →
      calcLevels hp hn fields ls df = some out →
      out.cols.filter p = df.cols.filter p := by
  intro ls
  induction ls with
  | nil =>
    intro df out _ h
    rw [← Option.some.inj h]
  | cons l ls ih =>
    intro df out hl h
    unfold calcLevels at h
    rcases hstep : calcLevelStep hp hn fields l df with _ | mid
    · rw [hstep] at h
      exact Option.noConfusion h
    · rw [hstep] at h
      have h2 : calcLevels hp hn fields ls mid = some out := h
      rw [ih mid out (fun x hx => hl x (List.mem_cons_of_mem l hx)) h2]
      exact cols_filter_calcLevelStep hp hn fields l df mid p
        (hl l (List.mem_cons_self l ls)).1 (hl l (List.mem_cons_self l ls)).2 hstep

/-- A lowercased name that starts with "adm" is never "geometry". -/
theorem lowerStr_adm_ne_geometry (t : String) :
    (lowerStr ("ADM" ++ t) == "geometry") = false := by
  apply beq_eq_false_iff_ne.mpr
  intro h
  have h3 : (lowerStr ("ADM" ++ t)).data = 'a' :: 'd' :: 'm' :: t.data.map Char.toLower := by
    show ("ADM" ++ t).data.map Char.toLower = _
    rw [String.data_append, List.map_append]
    rfl
  have h4 : ('a' :: 'd' :: 'm' :: t.data.map Char.toLower) = "geometry".data := by
    rw [← h3, h]
  have h5 : "geometry".data
      = 'g' :: 'e' :: 'o' :: 'm' :: 'e' :: 't' :: 'r' :: 'y' :: [] := rfl
  rw [h5] at h4
  injection h4 with h6 _
  exact absurd h6 (by decide)

/-- The columns that claim C1 misses: source columns other than "geometry"
itself whose lowercased name is "geometry" survive `drop_fields` (its
geometry guard is case-insensitive) and are therefore carried, uncanonical,
into the dissolved output. -/
def geomVariantLeft (req : List String) (c : String) : Bool :=
  ((lowerStr c == "geometry") && !req.contains c) && (c != "geometry")

theorem geomVariantLeft_adm (req : List String) (t : String) :
    geomVariantLeft req ("ADM" ++ t) = false := by
  unfold geomVariantLeft
  rw [lowerStr_adm_ne_geometry]
  rfl

theorem geomVariantLeft_of_lower (req : List String) (c : String)
    (h : (lowerStr c == "geometry") = false) : geomVariantLeft req c = false := by
  unfold geomVariantLeft
  rw [h]
  rfl

/-- C1 amended: for every input layer, country code, country name and level,
the attribute set of the layer returned by calculate_fields is the canonical
field list (every canonical column is present and in order) together with the
geometry column - EXCEPT that any source column whose lowercased name is
"geometry" (other than the geometry column itself) also survives, because
`drop_fields` spares case variants of "geometry". -/
theorem c1_schema_closure_amended (hp hn : List String) (df : DF) (iso cname : String)
    (n : Nat) (out : DF)
    (hcf : calculate_fields hp hn df iso cname (canonicalFields n) n = some out) :
    out.cols = canonicalFields n ++ "geometry" ::
      df.cols.filter (geomVariantLeft (canonicalFields n)) := by
  unfold calculate_fields at hcf
  dsimp only at hcf
  rcases Option.map_eq_some'.mp hcf with ⟨df2, hlev, hout⟩
  rw [← hout]
  unfold dissolve drop_fields
  dsimp only
  congr 1
  congr 1
  rw [List.filter_filter]
  have hconv : ∀ c : String,
      ((!(canonicalFields n).contains c && c != "geometry")
        && ((canonicalFields n).contains c || lowerStr c == "geometry"))
      = geomVariantLeft (canonicalFields n) c := by
    intro c
    unfold geomVariantLeft
    cases h1 : (canonicalFields n).contains c <;>
      cases h2 : (lowerStr c == "geometry") <;>
      cases h3 : (c != "geometry") <;>
      simp [h1, h2, h3]
  rw [List.filter_congr (fun c _ => hconv c)]
  have hlevf := cols_filter_calcLevels hp hn
    (((df.setColConst "alpha_3" (Val.str (upperStr iso))).setColConst
      "ADM0_REF" (Val.str cname)).cols)
    (geomVariantLeft (canonicalFields n)) (List.range' 1 n) _ df2
    (fun l _ => ⟨geomVariantLeft_adm _ _, geomVariantLeft_adm _ _⟩) hlev
  rw [hlevf]
  rw [cols_filter_setColConst _ _ _ _ (geomVariantLeft_of_lower _ _ (by decide))]
  rw [cols_filter_setColConst _ _ _ _ (geomVariantLeft_of_lower _ _ (by decide))]

/-- A source layer holding, besides mappable pcode/name columns and the
geometry column, an attribute column literally named "GEOMETRY". -/
def rowC1 : String → Val := fun c =>
  if c = "ADM1_PCODE" then .str "AB01"
  else if c = "ADM1_EN" then .str "North"
  else if c = "GEOMETRY" then .str "x"
  else .geom [0]

def dfC1 : DF := ⟨["ADM1_PCODE", "ADM1_EN", "GEOMETRY", "geometry"], [rowC1], none⟩

/-- C1 fails as stated: on a source layer with an attribute column named
"GEOMETRY", the harmonized output keeps that column - an attribute that is
neither in the canonical field list nor the geometry column - because
`drop_fields` spares every column whose lowercased name is "geometry". -/
theorem c1_counterexample :
    (calculate_fields ["ADM#_PCODE"] ["ADM#_EN"] dfC1 "abc" "Cland"
        (canonicalFields 1) 1).map
      (fun o => o.cols.filter (fun c => !(canonicalFields 1).contains c && c != "geometry"))
      = some ["GEOMETRY"] := by
  decide

theorem c1_schema_closure_amended_witness :
    (calculate_fields ["ADM#_PCODE"] ["ADM#_EN"] dfC1 "abc" "Cland"
        (canonicalFields 1) 1).map DF.cols
      = some (canonicalFields 1 ++ "geometry" ::
          dfC1.cols.filter (geomVariantLeft (canonicalFields 1))) := by
  have hs : (calculate_fields ["ADM#_PCODE"] ["ADM#_EN"] dfC1 "abc" "Cland"
      (canonicalFields 1) 1).isSome = true := by decide
  rcases hW : calculate_fields ["ADM#_PCODE"] ["ADM#_EN"] dfC1 "abc" "Cland"
      (canonicalFields 1) 1 with _ | out
  · rw [hW] at hs
    exact Bool.noConfusion hs
  · show some out.cols = _
    rw [c1_schema_closure_amended _ _ _ _ _ _ _ hW]

/-- A source layer with a lowercase-named numeric pcode column holding the
values 12034.5 and 7. -/
def rowP1 : String → Val := fun _ => .num (Rat.divInt 24069 2)

def rowP2 : String → Val := fun _ => .num (Rat.divInt 7 1)

def dfP : DF := ⟨["adm1_pcode"], [rowP1, rowP2], none⟩

theorem c2_pcode_stringification_witness :
    (calcLevelStep ["ADM#_PCODE"] ["ADM#_EN"] ["adm1_pcode"] 1 dfP).map
        (fun o => o.colVals (admPcodeName 1))
      = some [Val.str "12034", Val.str "7"] := by
  have hs : (calcLevelStep ["ADM#_PCODE"] ["ADM#_EN"] ["adm1_pcode"] 1 dfP).isSome
      = true := by decide
  rcases hW : calcLevelStep ["ADM#_PCODE"] ["ADM#_EN"] ["adm1_pcode"] 1 dfP with _ | out
  · rw [hW] at hs
    exact Bool.noConfusion hs
  · have h := ((c2_pcode_stringification _ _ _ _ _ _ hW).2 "adm1_pcode" (by decide)
      (by decide)).1 (by decide)
    show some (out.colVals (admPcodeName 1)) = _
    rw [h]
    decide

/-! ### Orchestration failure containment (claim C8) -/

/-- C8 amended: the failures the source detects with explicit checks are
contained to the smallest unit - a level whose resource resolution finds zero
or several candidates is skipped with the store unchanged, a level whose
shapefile cannot be produced (a failed download, a bad archive or a failed
selection, all of which surface as `find_shapefile = none`) is likewise
skipped with the store unchanged, a country whose boundary dataset cannot be
found is skipped, and a do-not-process country is skipped.  The original
claim's stronger statement - that NO failure escapes its unit, and in
particular that a country code matching zero admin-0 records is a contained
per-country failure - is false: that condition raises an uncaught exception
inside create_national_boundary which aborts the whole multi-country run
(see the counterexample). -/
theorem c8_containment_amended :
    (∀ (env : Env) (ds : HDataset) (adm0 : DF) (iso cname : String) (st : Store)
        (level : String),
      (find_resource env.resource_exceptions iso ds level).length ≠ 1 →
      processLevel env ds adm0 iso cname st level = .ok st) ∧
    (∀ (env : Env) (ds : HDataset) (adm0 : DF) (iso cname : String) (st : Store)
        (level : String) (r0 : Resource),
      find_resource env.resource_exceptions iso ds level = [r0] →
      find_shapefile env r0 level = none →
      processLevel env ds adm0 iso cname st level = .ok st) ∧
    (∀ (env : Env) (st : Store) (country : CountryRec) (levels dnp : List String),
      env.readDataset ((env.dataset_exceptions.lookup country.iso3).getD
        ("cod-em-" ++ lowerStr country.iso3)) = none →
      env.readDataset ("cod-ab-" ++ lowerStr country.iso3) = none →
      update_subnational_boundaries env st country levels dnp = .ok st) ∧
    (∀ (env : Env) (st : Store) (country : CountryRec) (levels dnp : List String),
      dnp.contains country.iso3 = true →
      update_subnational_boundaries env st country levels dnp = .ok st) := by
  refine ⟨?_, ?_, ?_, ?_⟩
  · intro env ds adm0 iso cname st level h
    unfold processLevel
    dsimp only
    by_cases h0 : (find_resource env.resource_exceptions iso ds level).length = 0
    · rw [if_pos h0]
    · rw [if_neg h0, if_pos h]
  · intro env ds adm0 iso cname st level r0 hres hsh
    unfold processLevel
    dsimp only
    rw [hres]
    simp [hsh]
  · intro env st country levels dnp h1 h2
    unfold update_subnational_boundaries
    dsimp only
    by_cases hd : dnp.contains country.iso3
    · rw [if_pos hd]
    · rw [if_neg hd, h1, h2]
  · intro env st country levels dnp h
    unfold update_subnational_boundaries
    dsimp only
    rw [if_pos h]

/-- An environment whose catalog is empty. -/
def envW : Env := ⟨fun _ => none, fun _ => none, fun _ => none, fun _ => emptyDF, id,
  fun g _ => some g, fun _ => true, id, fun _ df => df, fun df _ => df, id, [], [], [], []⟩

theorem c8_containment_amended_witness :
    ((find_resource envW.resource_exceptions "AAA" ⟨[]⟩ "adm1").length ≠ 1 ∧
      processLevel envW ⟨[]⟩ emptyDF "AAA" "Aland" [] "adm1" = .ok []) ∧
    (find_resource envW.resource_exceptions "AAA" ⟨[⟨"x_adm1_shp", "shp", "p"⟩]⟩ "adm1"
        = [⟨"x_adm1_shp", "shp", "p"⟩] ∧
      find_shapefile envW ⟨"x_adm1_shp", "shp", "p"⟩ "adm1" = none ∧
      processLevel envW ⟨[⟨"x_adm1_shp", "shp", "p"⟩]⟩ emptyDF "AAA" "Aland" [] "adm1"
        = .ok []) ∧
    update_subnational_boundaries envW [] ⟨"AAA", "Aland"⟩ ["adm1"] [] = .ok [] ∧
    update_subnational_boundaries envW [] ⟨"AAA", "Aland"⟩ ["adm1"] ["AAA"] = .ok [] := by
  refine ⟨⟨by decide, ?_⟩, ⟨by decide, by decide, ?_⟩, ?_, ?_⟩
  · exact c8_containment_amended.1 envW ⟨[]⟩ emptyDF "AAA" "Aland" [] "adm1" (by decide)
  · exact c8_containment_amended.2.1 envW ⟨[⟨"x_adm1_shp", "shp", "p"⟩]⟩ emptyDF
      "AAA" "Aland" [] "adm1" ⟨"x_adm1_shp", "shp", "p"⟩ (by decide) (by decide)
  · exact c8_containment_amended.2.2.1 envW [] ⟨"AAA", "Aland"⟩ ["adm1"] [] rfl rfl
  · exact c8_containment_amended.2.2.2 envW [] ⟨"AAA", "Aland"⟩ ["adm1"] ["AAA"] (by decide)

/-- A global admin-0 layer holding only country "AAA". -/
def rowAdm0A : String → Val := fun c => if c = "ISO_3" then .str "AAA" else .geom [0]

def dfAdm0 : DF := ⟨["ISO_3", "geometry"], [rowAdm0A], some "WGS 84"⟩

def stG : Store := [("adm0_polygon", dfAdm0), ("water", ⟨["geometry"], [], some "WGS 84"⟩)]

/-- An environment whose catalog answers every dataset query (so country
processing always proceeds past the dataset lookup). -/
def envG : Env := ⟨fun _ => some ⟨[]⟩, fun _ => none, fun _ => none, fun _ => emptyDF, id,
  fun g _ => some g, fun _ => true, id, fun _ df => df, fun df _ => df, id, [], [], [], []⟩

/-- C8 fails as stated: a country code ("BBB") matching zero records in the
global admin-0 layer raises an uncaught error inside
create_national_boundary, and since run.py's per-country loop has no
exception handling, the error aborts the entire multi-country run - country
"AAA", which on its own processes fine, is never reached. -/
theorem c8_counterexample :
    runAll envG stG [⟨"BBB", "Bland"⟩, ⟨"AAA", "Aland"⟩] ["adm1"] []
        = .error PyErr.keyError ∧
    runAll envG stG [⟨"AAA", "Aland"⟩] ["adm1"] [] = .ok stG := by
  constructor
  · rfl
  · rfl

end GB
